import Mathlib

/-!
Verification of the `ic50-prediction` pipeline (`dataset.py`, `models.py`,
`trainers.py`) against its natural-language specification.

The pipeline is shallowly embedded: dataframes become Lean lists of rows,
numpy arrays become lists of rationals (float arithmetic at the concrete
inputs used here is exact), Python exceptions become `Except` errors, and
the external cheminformatics toolkit (`Chem.MolFromSmiles`,
`GetSparseCountFingerprint`) is abstracted by passing its result — an
optional bit-info map — as an argument.
-/

/-- A Morgan bit-info map, as produced by `GetBitInfoMap()` in
`smiles_to_morgan` (`dataset.py` lines 144-152): a finite map from a
fingerprint key to the list of `(atomIdx, radius)` pairs at which that
substructure occurs.  Represented as an association list. -/
abbrev MorganInfo := List (Nat × List (Nat × Nat))

/-- The value returned by `smiles_to_morgan` (`dataset.py` lines 144-154):
either the bit-info map (a Python dict), or — when `Chem.MolFromSmiles`
returned `None` — the numpy array `np.zeros((13_279,))`.  The two branches
return values of different Python types, which is exactly what the
downstream dict-only operations trip over. -/
inductive MorganResult where
  | infoMap (info : MorganInfo)
  | zerosArray (n : Nat)
deriving DecidableEq, Repr

/-- `smiles_to_morgan` (`dataset.py` lines 144-154), parametrised by the
outcome of the external parse `Chem.MolFromSmiles(smiles)`: `some info`
when the molecule parsed (with `info` the collected bit-info map), `none`
when the parse failed. -/
def smiles_to_morgan (parsed : Option MorganInfo) : MorganResult :=
  match parsed with
  | some info => MorganResult.infoMap info
  | none => MorganResult.zerosArray 13279

/-- `np.mean` of a flat array (division by zero yields 0 in the rationals of Lean;
all uses here are on nonempty arrays). -/
def np_mean (xs : List ℚ) : ℚ := xs.sum / xs.length

/-- The variance `np.std(xs) ** 2`, i.e. the mean of squared deviations. -/
def np_var (xs : List ℚ) : ℚ :=
  (xs.map (fun x => (x - np_mean xs) ^ 2)).sum / xs.length

/-- Integer square root (largest `m` with `m * m ≤ n`), by linear search
so that it reduces inside the kernel. -/
def natSqrt (n : Nat) : Nat :=
  ((List.range (n + 1)).filter (fun m => m * m ≤ n)).foldl max 0

/-- Square root on `ℚ`, exact whenever the numerator and denominator are
perfect squares.  Every concrete input in this file keeps `np_var` a
perfect square, so `np_std` below agrees with `np.std` there. -/
def ratSqrt (q : ℚ) : ℚ := (natSqrt q.num.toNat : ℚ) / (natSqrt q.den : ℚ)

/-- `np.std` of a flat array: the square root of the mean squared
deviation. -/
def np_std (xs : List ℚ) : ℚ := ratSqrt (np_var xs)

/-- `np.zeros((key_count, radius_count))` as a list of rows. -/
def zeros2D (key_count radius_count : Nat) : List (List ℚ) :=
  List.replicate key_count (List.replicate radius_count 0)

/-- `m[i, j] = v` on the 2-D array representation (out-of-range indices
are a no-op; the pipeline only writes in range). -/
def set2D (m : List (List ℚ)) (i j : Nat) (v : ℚ) : List (List ℚ) :=
  m.set i ((m.getD i []).set j v)

/-- `morgan_info_to_embedding` (`dataset.py` lines 166-174), applied to a
`smiles_to_morgan` result.  On a bit-info map it builds
`np.zeros((key_count, radius_count))` and, for each key, writes the count
of each traversal radius (the `Counter` over the last components of the
`(atomIdx, radius)` pairs) at `[total_morgan_key2idx[key], radius]`.
Applied to the zero *array* produced for an unparseable SMILES it raises:
`numpy.ndarray` has no `.items()` method, so the Python call fails with an
`AttributeError` instead of returning anything.  The source call sites
(lines 176-177) use the default shape `key_count = 13279`,
`radius_count = 4`. -/
def morgan_info_to_embedding (key2idx : Nat → Nat)
    (key_count radius_count : Nat) (r : MorganResult) :
    Except String (List (List ℚ)) :=
  match r with
  | MorganResult.zerosArray _ =>
      Except.error "AttributeError: numpy.ndarray object has no attribute items"
  | MorganResult.infoMap info =>
      Except.ok <| info.foldl (fun emb e =>
        let rads := e.2.map (fun p => p.2)
        rads.dedup.foldl
          (fun m rad => set2D m (key2idx e.1) rad (rads.count rad : ℚ))
          emb)
        (zeros2D key_count radius_count)

/-- `standardization` (`dataset.py` lines 180-184): computes the mean and
standard deviation of the flattened embedding and returns
`embedding - mean / std` — which, by operator precedence (in Python as in
Lean), is `embedding - (mean / std)`, not `(embedding - mean) / std`. -/
def standardization (embedding : List (List ℚ)) : List (List ℚ) :=
  let mean := np_mean embedding.flatten
  let std := np_std embedding.flatten
  embedding.map (fun row => row.map (fun x => x - mean / std))

/-- The normalization step as the spec words it (`spec.md` §4.1: "subtract
mean, divide by standard deviation"): `(embedding - mean) / std`.  Stated
for comparison with `standardization` above. -/
def standardization_spec (embedding : List (List ℚ)) : List (List ℚ) :=
  let mean := np_mean embedding.flatten
  let std := np_std embedding.flatten
  embedding.map (fun row => row.map (fun x => (x - mean) / std))

/-- The keys contributed by one record to the corpus vocabulary
(`dataset.py` lines 160-161, `info.keys()`).  On the zero-array fallback
of an unparseable SMILES this, too, raises: `numpy.ndarray` has no
`.keys()` method. -/
def morgan_info_keys (r : MorganResult) : Except String (List Nat) :=
  match r with
  | MorganResult.zerosArray _ =>
      Except.error "AttributeError: numpy.ndarray object has no attribute keys"
  | MorganResult.infoMap info => Except.ok (info.map (fun e => e.1))

/-- `morgan_key` (`dataset.py` lines 159-163): the distinct keys observed
across all given records, sorted ascending (Python `sorted(list(set))`). -/
def build_morgan_key (results : List MorganResult) : Except String (List Nat) := do
  let keyLists ← results.mapM morgan_info_keys
  Except.ok (keyLists.flatten.dedup.mergeSort (fun a b => decide (a ≤ b)))

/-- `total_morgan_key2idx` (`dataset.py` line 164): position of a key in
the sorted key list. -/
def total_morgan_key2idx (keys : List Nat) (k : Nat) : Nat := keys.indexOf k

/-- The embedding portion of `SimpleDNNPreprocess._preprocess`
(`dataset.py` lines 156-188), parametrised by the parse outcomes of the
train and test SMILES columns and by the embedding shape (the source uses
the defaults `key_count = 13279`, `radius_count = 4`).  Faithful to the
source, including line 187: the final test column is assigned from
`self.train_df["morgan_embedding"]` — the already-standardized *train*
column, standardized a second time — aligned to the test rows by index
(`none` models the NaN a test row receives when the train column has no
matching index). -/
def SimpleDNNPreprocess_embeddings
    (trainParsed testParsed : List (Option MorganInfo))
    (key_count radius_count : Nat) :
    Except String (List (List (List ℚ)) × List (Option (List (List ℚ)))) := do
  let trainInfos := trainParsed.map smiles_to_morgan
  let testInfos := testParsed.map smiles_to_morgan
  let keys ← build_morgan_key (trainInfos ++ testInfos)
  let key2idx := total_morgan_key2idx keys
  let trainEmb ← trainInfos.mapM (morgan_info_to_embedding key2idx key_count radius_count)
  let testEmb ← testInfos.mapM (morgan_info_to_embedding key2idx key_count radius_count)
  let trainStd := trainEmb.map standardization
  let testFinal := (List.range testEmb.length).map
    (fun i => (trainStd.map standardization)[i]?)
  Except.ok (trainStd, testFinal)

/-- `DataPreprocess.split` (`dataset.py` lines 50-61), parametrised by the
list of validation indices drawn by `random.sample(range(len(df)), ...)`
(a duplicate-free list of positions into the table, in draw order).  The
training indices are `sorted(list(set(range(n)) - set(valid_indices)))`,
i.e. the ascending positions not sampled; both partitions are read off by
positional indexing (`iloc`). -/
def DataPreprocess_split {α : Type} (df : List α) (valid_indices : List Nat) :
    List α × List α :=
  let train_indices := (List.range df.length).filter (fun i => i ∉ valid_indices)
  (train_indices.filterMap (fun i => df[i]?),
   valid_indices.filterMap (fun i => df[i]?))

/-- The validation slice of one fold of `DataPreprocess.k_fold_split`
(`dataset.py` lines 63-79): with `size = len(df) // k`, the rows at
positions `[fold * size, min(len(df), (fold + 1) * size))`. -/
def k_fold_valid_df {α : Type} (df : List α) (k fold : Nat) : List α :=
  let size := df.length / k
  (df.drop (fold * size)).take (min df.length ((fold + 1) * size) - fold * size)

/-- The training rows of one fold: `train_df.drop(valid_df.index)`, i.e.
the table with the contiguous validation block removed (the table carries
its original default integer index, so dropping the validation index
labels removes exactly the sliced block). -/
def k_fold_train_df {α : Type} (df : List α) (k fold : Nat) : List α :=
  let size := df.length / k
  df.take (fold * size) ++ df.drop (min df.length ((fold + 1) * size))

/-- `DataPreprocess.k_fold_split` (`dataset.py` lines 63-79): one
`(train, valid)` pair per fold `0, ..., k-1`. -/
def k_fold_split {α : Type} (df : List α) (k : Nat) : List (List α × List α) :=
  (List.range k).map (fun fold => (k_fold_train_df df k fold, k_fold_valid_df df k fold))

/-- The save decisions of `Trainer.run` (`trainers.py` lines 72-89):
starting from `best_loss = .0`, each epoch saves (and updates
`best_loss`) exactly when `best_loss == .0 or valid_loss < best_loss`.
Returns, per epoch, whether `_save_best_model` was called.  Losses are
embedded as rationals; the float comparisons at the inputs used here are
exact. -/
def run_save_flags (best_loss : ℚ) : List ℚ → List Bool
  | [] => []
  | valid_loss :: rest =>
    if best_loss = 0 ∨ valid_loss < best_loss then
      true :: run_save_flags valid_loss rest
    else
      false :: run_save_flags best_loss rest

/-- `_transform` of `SimpleDNN` (`models.py` lines 59-67) on one record:
`indices = arange(indice_size) + 1`, `mask = (x != 0)`, output
`mask * indices` — position `j` maps to `j + 1` when the count there is
nonzero and to the padding index `0` otherwise. -/
def SimpleDNN_transform (x : List ℚ) : List Nat :=
  List.zipWith (fun v i => if v ≠ 0 then i + 1 else 0) x (List.range x.length)

/-- `CountMorganEmbedding.forward` (`models.py` lines 77-84) on one
record: look up each index in the embedding table `E` (a map from index
to embedding vector; `padding_idx=0` zeroes row `0`) and take
`torch.mean` over the index dimension.  `torch.mean` over an empty
dimension is NaN, modelled as `none`; a nonempty list yields the sum
scaled by the reciprocal of the length. -/
def CountMorganEmbedding_forward {V : Type} [AddCommGroup V] [Module ℚ V]
    (E : Nat → V) (x : List Nat) : Option V :=
  if x = [] then none
  else some ((x.length : ℚ)⁻¹ • (x.map E).sum)

/-- Python `str.lower()` on the configuration strings used here:
character-wise `Char.toLower` (agreeing with CPython on the ASCII
configuration values involved). -/
def pyLower (s : String) : String := String.mk (s.data.map Char.toLower)

/-- `Trainer._device` (`trainers.py` lines 29-36), parametrised by
`torch.cuda.is_available()`: warns and returns `"cpu"` when the
accelerator is unavailable or the configured string is neither `"cpu"`
nor `"cuda"`; never raises. -/
def Trainer_device (cuda_available : Bool) (device : String) : String :=
  if ¬ cuda_available then "cpu"
  else if pyLower device ≠ "cpu" ∧ pyLower device ≠ "cuda" then "cpu"
  else pyLower device

/-- A Python exception as raised during `Trainer.__init__`. -/
inductive PyError where
  | valueError (msg : String)
  | typeError (msg : String)
deriving DecidableEq, Repr

/-- The model families `Trainer._model` can return. -/
inductive ModelKind where
  | simpleImageRegressor
deriving DecidableEq, Repr

/-- The loss functions `Trainer._loss` can return. -/
inductive LossKind where
  | mse
deriving DecidableEq, Repr

/-- `Trainer._loss` (`trainers.py` lines 38-43): `"mse"` (case-folded)
yields `nn.MSELoss()`; anything else raises a `ValueError` naming the
offending configuration value. -/
def Trainer_loss (loss : String) : Except PyError LossKind :=
  if pyLower loss = "mse" then Except.ok LossKind.mse
  else Except.error (PyError.valueError "undefined loss kind")

/-- `Trainer._model` (`trainers.py` lines 45-54): `"resnet"` and `"bert"`
construct `SimpleImageRegressor`; `"dnn"` executes
`SimpleDNN(input_dim=2_048, emb_dims=self.cfg.emb_dims)`, which raises a
`TypeError` because `SimpleDNN.__init__` (`models.py` line 16) has no
`emb_dims` parameter and its required `layer_dims` and `embed_dim`
arguments are missing; any other string raises a `ValueError`. -/
def Trainer_model (model_name : String) : Except PyError ModelKind :=
  if pyLower model_name = "resnet" then Except.ok ModelKind.simpleImageRegressor
  else if pyLower model_name = "bert" then Except.ok ModelKind.simpleImageRegressor
  else if pyLower model_name = "dnn" then
    Except.error (PyError.typeError
      "SimpleDNN.__init__ got an unexpected keyword argument emb_dims")
  else Except.error (PyError.valueError "no such model")

/-- `Trainer.__init__` (`trainers.py` lines 18-24): selects the device,
then constructs the model, then the loss; the first exception aborts
construction, before any training step can run. -/
def Trainer_init (cuda_available : Bool) (device model_name loss : String) :
    Except PyError (String × ModelKind × LossKind) := do
  let d := Trainer_device cuda_available device
  let m ← Trainer_model model_name
  let l ← Trainer_loss loss
  Except.ok (d, m, l)

/-- `pIC50_to_IC50` inside `Trainer.inference` (`trainers.py` lines
132-134): `10 ** (9 - pic50_values)`. -/
noncomputable def pIC50_to_IC50 (pic50 : ℝ) : ℝ := (10 : ℝ) ^ ((9 : ℝ) - pic50)

/-- The vectorized application of `pIC50_to_IC50` over the flattened
prediction array (`trainers.py` line 137). -/
noncomputable def pIC50_to_IC50_vec (pic50s : List ℝ) : List ℝ :=
  pic50s.map pIC50_to_IC50


/-- C1: the claim says a structure string that fails to parse yields a
zero vector of the declared dimensionality from the per-record embedding
step and never raises.  In fact `smiles_to_morgan` returns the 1-D array
`np.zeros((13_279,))` (not the `(13_279, 4)` embedding shape), and both
the vocabulary step (`info.keys()`) and the embedding step
(`info.items()`) then raise `AttributeError` on that array, because
`numpy.ndarray` has neither method. -/
theorem parse_failure_embedding_raises :
    morgan_info_to_embedding (fun k => k) 13279 4 (smiles_to_morgan none) =
      Except.error "AttributeError: numpy.ndarray object has no attribute items" ∧
    morgan_info_keys (smiles_to_morgan none) =
      Except.error "AttributeError: numpy.ndarray object has no attribute keys" :=
  ⟨rfl, rfl⟩

/-- C2: the claim says the per-record normalization returns
`(e - mean(e)) / std(e)`.  The code computes `embedding - mean / std`,
which by operator precedence is `e - (mean / std)`: on `e = [[0, 4]]`
(mean `2`, std `2`) the code yields `[[-1, 3]]` while the claimed formula
yields `[[-1, 1]]`. -/
theorem standardization_precedence_bug :
    standardization [[0, 4]] = [[-1, 3]] ∧
    standardization_spec [[0, 4]] = [[-1, 1]] ∧
    ([[-1, 3]] : List (List ℚ)) ≠ [[-1, 1]] := by
  refine ⟨?_, ?_, by norm_num⟩ <;>
  norm_num [standardization, standardization_spec, np_std, np_var, np_mean, ratSqrt,
    show natSqrt (Int.toNat 4) = 2 from by decide, show natSqrt 1 = 1 from by decide]

/-- C4: the claim says the checkpoint is written only at epochs whose
validation loss is strictly below every previous one, and that a run
whose losses strictly increase after epoch 0 saves exactly once.  On the
loss sequence `[0, 5]` — strictly increasing after epoch 0 — the code
saves at *both* epochs: after a validation loss of exactly `0.0` the
sentinel test `best_loss == .0` fires again and epoch 1 overwrites the
checkpoint although `5` is not below `0`. -/
theorem checkpoint_zero_sentinel_bug :
    run_save_flags 0 [0, 5] = [true, true] ∧
    (run_save_flags 0 [0, 5]).count true = 2 ∧
    (0 : ℚ) < 5 := by
  refine ⟨?_, ?_, by norm_num⟩ <;> norm_num [run_save_flags]

/-- C9: the claim says every loss-kind string other than `"mse"` makes
trainer construction raise a descriptive configuration error.  With the
recognized model kind `"dnn"`, construction instead raises a `TypeError`:
`_model` runs before `_loss` and calls
`SimpleDNN(input_dim=2_048, emb_dims=...)`, whose signature has no
`emb_dims` parameter — so the loss value `"mae"` is never even inspected,
although `_loss` alone would have raised the claimed `ValueError`. -/
theorem trainer_init_dnn_type_error :
    Trainer_init true "cuda" "dnn" "mae" =
      Except.error (PyError.typeError
        "SimpleDNN.__init__ got an unexpected keyword argument emb_dims") ∧
    Trainer_loss "mae" = Except.error (PyError.valueError "undefined loss kind") ∧
    Trainer_device false "cuda" = "cpu" ∧
    Trainer_device true "tpu" = "cpu" := by
  exact ⟨rfl, rfl, by decide, by decide⟩

/-- A one-record train table for exercising the preprocess pipeline: one
key (`5`) occurring four times at traversal radius `1`. -/
def infoA : MorganInfo := [(5, [(0, 1), (1, 1), (2, 1), (3, 1)])]

/-- A one-record test table: the same key occurring twice at radius `1`,
so its own embedding differs from that of the train record. -/
def infoB : MorganInfo := [(5, [(0, 1), (1, 1)])]

/-- C3: the claim says the attached embedding of each test record is a
function of the structure string of that same record.  In fact line 187 of
`dataset.py` assigns the test column from
`self.train_df["morgan_embedding"]`: with the train record `infoA` and
the test record `infoB` (vocabulary `[5]`, shape `1 × 2`), the pipeline
attaches `[[-3/2, 5/2]]` to the test record — the embedding of the train
record standardized twice — while the standardized embedding of the test
record itself is `[[-1, 1]]`. -/
theorem test_embedding_from_train_column_bug :
    SimpleDNNPreprocess_embeddings [some infoA] [some infoB] 1 2 =
      Except.ok ([[[-1, 3]]], [some [[-(3 : ℚ)/2, 5/2]]]) ∧
    (morgan_info_to_embedding (total_morgan_key2idx [5]) 1 2
        (smiles_to_morgan (some infoB))).map standardization =
      Except.ok [[-1, 1]] ∧
    (some [[-(3 : ℚ)/2, 5/2]] : Option (List (List ℚ))) ≠ some [[-1, 1]] := by
  refine ⟨?_, ?_, by norm_num⟩
  · norm_num [SimpleDNNPreprocess_embeddings, build_morgan_key, morgan_info_keys,
      smiles_to_morgan, infoA, infoB, List.mapM, List.mapM.loop,
      Bind.bind, Except.bind, Pure.pure, Except.pure,
      morgan_info_to_embedding, total_morgan_key2idx, zeros2D, set2D, List.set,
      standardization, np_std, np_var, np_mean, ratSqrt,
      show List.range 1 = [0] from rfl,
      show natSqrt (Int.toNat 4) = 2 from by decide, show natSqrt 1 = 1 from by decide]
  · norm_num [morgan_info_to_embedding, total_morgan_key2idx, smiles_to_morgan, infoB,
      zeros2D, set2D, List.set, Except.map,
      standardization, np_std, np_var, np_mean, ratSqrt,
      show natSqrt (Int.toNat 4) = 2 from by decide, show natSqrt 1 = 1 from by decide]

/-- C5: the inverse transform at inference time is
`IC50 = 10 ^ (9 - pIC50)` for the scalar function and elementwise for
the vectorized application; in particular `pIC50 = 9 ↦ IC50 = 1` and
`pIC50 = 6 ↦ IC50 = 1000`. -/
theorem pIC50_to_IC50_correct :
    pIC50_to_IC50 9 = 1 ∧ pIC50_to_IC50 6 = 1000 ∧
    ∀ pic50s : List ℝ,
      pIC50_to_IC50_vec pic50s = pic50s.map (fun p => (10 : ℝ) ^ ((9 : ℝ) - p)) := by
  refine ⟨?_, ?_, fun pic50s => rfl⟩
  · show (10 : ℝ) ^ ((9 : ℝ) - 9) = 1
    rw [show (9 : ℝ) - 9 = 0 by norm_num, Real.rpow_zero]
  · show (10 : ℝ) ^ ((9 : ℝ) - 6) = 1000
    rw [show (9 : ℝ) - 6 = ((3 : ℕ) : ℝ) by norm_num, Real.rpow_natCast]
    norm_num

/-- C8 counterexample: the claim says an all-zero substructure-count
vector produces the same pooled embedding as an explicit zero-length
index list.  With any embedding table whose padding row `0` is zero
(here `E n = n`), the all-zero record `[0, 0, 0]` pools to `some 0`
(the padding rows average to the zero vector over 3 positions) while the
zero-length index list pools to `none` — `torch.mean` over an empty
dimension is NaN — so the two differ. -/
theorem allzero_vs_empty_pooling_counterexample :
    ¬ (CountMorganEmbedding_forward (fun n => (n : ℚ)) (SimpleDNN_transform [0, 0, 0]) =
       CountMorganEmbedding_forward (fun n => (n : ℚ)) ([] : List Nat)) := by
  norm_num [CountMorganEmbedding_forward, SimpleDNN_transform,
    show List.range 3 = [0, 1, 2] from rfl]
  exact ⟨by simp, by simp⟩

/-- C8 (amended): index 0 is indeed treated as padding — an all-zero
(and nonempty) substructure-count vector is transformed to all padding
indices, whose embedding rows are zero, so the pooled embedding is the
zero vector; but this *differs* from an explicit zero-length index list,
whose `torch.mean` pooling over the empty index dimension is NaN
(modelled `none`). -/
theorem allzero_pooling_amended (V : Type) [AddCommGroup V] [Module ℚ V]
    (E : Nat → V) (hE : E 0 = 0) (counts : List ℚ)
    (hne : counts ≠ []) (hz : ∀ v ∈ counts, v = 0) :
    CountMorganEmbedding_forward E (SimpleDNN_transform counts) = some 0 ∧
    CountMorganEmbedding_forward E ([] : List Nat) = none := by
  have htrans : ∀ (cs : List ℚ) (idx : List Nat), (∀ v ∈ cs, v = 0) →
      List.zipWith (fun v i => if v ≠ 0 then i + 1 else 0) cs idx =
        List.replicate (min cs.length idx.length) 0 := by
    intro cs
    induction cs with
    | nil => intro idx _; simp
    | cons c cs ih =>
      intro idx hcz
      cases idx with
      | nil => simp
      | cons j js =>
        have hc : c = 0 := hcz c (List.mem_cons_self c cs)
        simp only [List.zipWith_cons_cons, List.length_cons, Nat.succ_min_succ,
          List.replicate_succ, hc]
        refine congrArg₂ List.cons (by simp) ?_
        exact ih js (fun v hv => hcz v (List.mem_cons_of_mem c hv))
  have h1 : SimpleDNN_transform counts = List.replicate counts.length 0 := by
    unfold SimpleDNN_transform
    rw [htrans counts (List.range counts.length) hz, List.length_range, Nat.min_self]
  constructor
  · rw [CountMorganEmbedding_forward, h1]
    have hlen : counts.length ≠ 0 := fun h => hne (List.eq_nil_of_length_eq_zero h)
    rw [if_neg (by simp [List.replicate_eq_nil_iff, hlen])]
    simp [List.map_replicate, hE, List.sum_replicate]
  · rfl

/-- Witness for `allzero_pooling_amended` at the embedding table
`E = 0`, the two-position all-zero record. -/
theorem allzero_pooling_amended_witness :
    CountMorganEmbedding_forward (fun _ => (0 : ℚ)) (SimpleDNN_transform [0, 0]) = some 0 ∧
    CountMorganEmbedding_forward (fun _ => (0 : ℚ)) ([] : List Nat) = none :=
  allzero_pooling_amended ℚ (fun _ => 0) rfl [0, 0] (by simp) (by simp)

/-- Membership in a `take` of a `drop` of `List.range n` is an interval
condition on the element. -/
lemma mem_take_drop_range (n a c x : Nat) :
    x ∈ ((List.range n).drop a).take c ↔ a ≤ x ∧ x < min n (a + c) := by
  simp only [List.mem_iff_getElem, List.getElem_take, List.getElem_drop,
    List.getElem_range, List.length_take, List.length_drop, List.length_range]
  constructor
  · rintro ⟨i, hi, rfl⟩
    omega
  · rintro ⟨h1, h2⟩
    exact ⟨x - a, by omega, by omega⟩

/-- Membership in a `drop` of `List.range n`. -/
lemma mem_drop_range (n a x : Nat) : x ∈ (List.range n).drop a ↔ a ≤ x ∧ x < n := by
  simp only [List.mem_iff_getElem, List.getElem_drop, List.getElem_range,
    List.length_drop, List.length_range]
  constructor
  · rintro ⟨i, hi, rfl⟩
    omega
  · rintro ⟨h1, h2⟩
    exact ⟨x - a, by omega, by omega⟩

/-- A row position lies in the validation slice of fold `fold` exactly when it
lies in `[fold * size, min n ((fold + 1) * size))` for `size = n / k`. -/
lemma mem_k_fold_valid_range (n k fold x : Nat) :
    x ∈ k_fold_valid_df (List.range n) k fold ↔
      fold * (n / k) ≤ x ∧ x < min n ((fold + 1) * (n / k)) := by
  simp only [k_fold_valid_df, List.length_range]
  rw [mem_take_drop_range]
  have hab : fold * (n / k) ≤ (fold + 1) * (n / k) :=
    Nat.mul_le_mul_right _ (Nat.le_succ fold)
  omega

/-- Bounds satisfied by every position in a validation slice. -/
lemma k_fold_valid_bounds (n k fold x : Nat)
    (hx : x ∈ k_fold_valid_df (List.range n) k fold) :
    fold * (n / k) ≤ x ∧ x < (fold + 1) * (n / k) ∧ x < n := by
  have h := (mem_k_fold_valid_range n k fold x).mp hx
  omega

/-- C6: for every table and every `k ≥ 1`, `k_fold_split` yields exactly
`k` folds, the validation slices are pairwise disjoint (as sets of row
positions), and the training rows of each fold together with its validation
rows are a permutation of — so in particular their union equals — the
full table. -/
theorem k_fold_split_partitions {α : Type} (df : List α) (k : Nat) (hk : 1 ≤ k) :
    (k_fold_split df k).length = k ∧
    (∀ i j, i < k → j < k → i ≠ j → ∀ x,
      x ∈ k_fold_valid_df (List.range df.length) k i →
      x ∉ k_fold_valid_df (List.range df.length) k j) ∧
    (∀ fold, fold < k →
      (k_fold_train_df df k fold ++ k_fold_valid_df df k fold).Perm df) := by
  refine ⟨by simp [k_fold_split], ?_, ?_⟩
  · intro i j hi hj hij x hxi hxj
    have bi := k_fold_valid_bounds df.length k i x hxi
    have bj := k_fold_valid_bounds df.length k j x hxj
    rcases Nat.lt_or_ge i j with hij2 | hij2
    · have : (i + 1) * (df.length / k) ≤ j * (df.length / k) :=
        Nat.mul_le_mul_right _ hij2
      omega
    · have hji : j < i := by omega
      have : (j + 1) * (df.length / k) ≤ i * (df.length / k) :=
        Nat.mul_le_mul_right _ hji
      omega
  · intro fold hfold
    simp only [k_fold_train_df, k_fold_valid_df]
    have hs1 : fold * (df.length / k) ≤ (fold + 1) * (df.length / k) :=
      Nat.mul_le_mul_right _ (Nat.le_succ fold)
    have hs2 : (fold + 1) * (df.length / k) ≤ k * (df.length / k) :=
      Nat.mul_le_mul_right _ hfold
    have hs3 : k * (df.length / k) ≤ df.length := by
      rw [Nat.mul_comm]
      exact Nat.div_mul_le_self df.length k
    have hsplit : (df.drop (fold * (df.length / k))).take
          (min df.length ((fold + 1) * (df.length / k)) - fold * (df.length / k)) ++
        df.drop (min df.length ((fold + 1) * (df.length / k))) =
        df.drop (fold * (df.length / k)) := by
      conv_rhs => rw [← List.take_append_drop
        (min df.length ((fold + 1) * (df.length / k)) - fold * (df.length / k))
        (df.drop (fold * (df.length / k)))]
      rw [List.drop_drop]
      congr 2
      omega
    rw [List.append_assoc]
    refine List.Perm.trans (List.Perm.append_left _ List.perm_append_comm) ?_
    rw [hsplit, List.take_append_drop]

/-- Witness for `k_fold_split_partitions` on the 5-row table split into 2
folds, together with the concrete first validation slice. -/
theorem k_fold_split_partitions_witness :
    (k_fold_split (List.range 5) 2).length = 2 ∧
    (k_fold_train_df (List.range 5) 2 0 ++ k_fold_valid_df (List.range 5) 2 0).Perm
      (List.range 5) ∧
    k_fold_valid_df (List.range 5) 2 0 = [0, 1] :=
  ⟨(k_fold_split_partitions (List.range 5) 2 (by decide)).1,
   (k_fold_split_partitions (List.range 5) 2 (by decide)).2.2 0 (by decide),
   by decide⟩

/-- C10: when `n` is not divisible by `k`, the last `n % k` row positions
(those `≥ k * (n / k)`) lie in the training rows of every fold and in the
validation slice of no fold, every validation position lies in the table, and
some table position (namely `k * (n / k)`) lies in no validation slice,
so the union of the `k` validation slices is a strict subset of the
table. -/
theorem k_fold_remainder_rows (n k : Nat) (hk : 1 ≤ k) (hmod : n % k ≠ 0) :
    (∀ fold, fold < k → ∀ x, k * (n / k) ≤ x → x < n →
      x ∉ k_fold_valid_df (List.range n) k fold ∧
      x ∈ k_fold_train_df (List.range n) k fold) ∧
    (∀ fold x, x ∈ k_fold_valid_df (List.range n) k fold → x ∈ List.range n) ∧
    (∃ x, x ∈ List.range n ∧ ∀ fold, fold < k →
      x ∉ k_fold_valid_df (List.range n) k fold) := by
  have hdiv : k * (n / k) ≤ n := by
    rw [Nat.mul_comm]
    exact Nat.div_mul_le_self n k
  have hstep : ∀ fold, fold < k → (fold + 1) * (n / k) ≤ k * (n / k) :=
    fun fold hf => Nat.mul_le_mul_right _ hf
  have hnotin : ∀ fold, fold < k → ∀ x, k * (n / k) ≤ x →
      x ∉ k_fold_valid_df (List.range n) k fold := by
    intro fold hf x hx hmem
    have hb := (mem_k_fold_valid_range n k fold x).mp hmem
    have := hstep fold hf
    omega
  refine ⟨?_, ?_, ?_⟩
  · intro fold hf x hx1 hx2
    refine ⟨hnotin fold hf x hx1, ?_⟩
    simp only [k_fold_train_df, List.length_range]
    rw [List.mem_append]
    right
    rw [mem_drop_range]
    have := hstep fold hf
    omega
  · intro fold x hx
    have := (mem_k_fold_valid_range n k fold x).mp hx
    rw [List.mem_range]
    omega
  · refine ⟨k * (n / k), ?_, fun fold hf => hnotin fold hf _ (le_refl _)⟩
    rw [List.mem_range]
    have := Nat.mod_add_div n k
    omega

/-- Witness for `k_fold_remainder_rows` with `n = 5`, `k = 2`: the last
row position `4` is in the training rows of fold 0 and in no validation slice,
and the two validation slices are `[0, 1]` and `[2, 3]`. -/
theorem k_fold_remainder_rows_witness :
    (4 ∉ k_fold_valid_df (List.range 5) 2 0 ∧
     4 ∈ k_fold_train_df (List.range 5) 2 0) ∧
    k_fold_valid_df (List.range 5) 2 1 = [2, 3] :=
  ⟨(k_fold_remainder_rows 5 2 (by decide) (by decide)).1 0 (by decide) 4
      (by decide) (by decide),
   by decide⟩

/-- Reading every position of a list in order through positional lookup
reproduces the list. -/
lemma filterMap_getElem_range {α : Type} (l : List α) :
    (List.range l.length).filterMap (fun i => l[i]?) = l := by
  induction l with
  | nil => simp
  | cons a t ih =>
    simp only [List.length_cons, List.range_succ_eq_map, List.filterMap_cons,
      List.getElem?_cons_zero, List.filterMap_map, Function.comp_def,
      List.getElem?_cons_succ]
    exact congrArg (List.cons a) ih

/-- C7: for every table, every validation ratio in `[0, 1]`, and every
outcome of the random sample (a duplicate-free list of in-range row
positions of the size `int(len(indices) * valid_ratio)` that
`random.sample` draws), the two partitions produced by
`DataPreprocess.split` have lengths summing exactly to the full table
length, and their concatenation is a permutation of the table — every
original row appears in exactly one partition. -/
theorem split_is_partition {α : Type} (df : List α) (valid_ratio : ℚ)
    (valid_indices : List Nat)
    (h0 : 0 ≤ valid_ratio) (h1 : valid_ratio ≤ 1)
    (hnd : valid_indices.Nodup)
    (hlt : ∀ i ∈ valid_indices, i < df.length)
    (hlen : valid_indices.length = (⌊(df.length : ℚ) * valid_ratio⌋).toNat) :
    (DataPreprocess_split df valid_indices).1.length +
      (DataPreprocess_split df valid_indices).2.length = df.length ∧
    ((DataPreprocess_split df valid_indices).1 ++
      (DataPreprocess_split df valid_indices).2).Perm df := by
  have hperm2 : valid_indices.Perm
      ((List.range df.length).filter (fun i => decide (i ∈ valid_indices))) := by
    refine (List.perm_ext_iff_of_nodup hnd
      (List.Nodup.filter _ (List.nodup_range df.length))).mpr ?_
    intro a
    simp only [List.mem_filter, List.mem_range, decide_eq_true_eq]
    exact ⟨fun ha => ⟨hlt a ha, ha⟩, fun h => h.2⟩
  have hcompl : (List.range df.length).filter (fun i => i ∉ valid_indices) =
      (List.range df.length).filter (fun i => !decide (i ∈ valid_indices)) := by
    simp only [decide_not]
  have hperm3 : (((List.range df.length).filter (fun i => i ∉ valid_indices)) ++
      valid_indices).Perm (List.range df.length) := by
    have hfilters := List.filter_append_perm
      (fun i => decide (i ∈ valid_indices)) (List.range df.length)
    have h4 : (((List.range df.length).filter (fun i => i ∉ valid_indices)) ++
        valid_indices).Perm
        ((List.range df.length).filter (fun i => !decide (i ∈ valid_indices)) ++
         (List.range df.length).filter (fun i => decide (i ∈ valid_indices))) := by
      rw [hcompl]
      exact List.Perm.append_left _ hperm2
    exact h4.trans (List.perm_append_comm.trans hfilters)
  have hmapped := List.Perm.filterMap (fun i => df[i]?) hperm3
  rw [filterMap_getElem_range df, List.filterMap_append] at hmapped
  have hgoal : ((DataPreprocess_split df valid_indices).1 ++
      (DataPreprocess_split df valid_indices).2).Perm df := by
    simp only [DataPreprocess_split]
    exact hmapped
  refine ⟨?_, hgoal⟩
  have hl := hgoal.length_eq
  rw [List.length_append] at hl
  exact hl

/-- Witness for `split_is_partition` on a 5-row table with validation
ratio `1` and the sample `[3, 1, 0, 2, 4]`. -/
theorem split_is_partition_witness :
    (DataPreprocess_split [10, 20, 30, 40, 50] [3, 1, 0, 2, 4]).1.length +
      (DataPreprocess_split [10, 20, 30, 40, 50] [3, 1, 0, 2, 4]).2.length = 5 ∧
    ((DataPreprocess_split [10, 20, 30, 40, 50] [3, 1, 0, 2, 4]).1 ++
      (DataPreprocess_split [10, 20, 30, 40, 50] [3, 1, 0, 2, 4]).2).Perm
      [10, 20, 30, 40, 50] :=
  split_is_partition [10, 20, 30, 40, 50] 1 [3, 1, 0, 2, 4]
    zero_le_one (le_refl 1) (by decide) (by decide) (by simp)
